import Mathlib

/-!
Shallow embedding of the GraphQL API repository (main.py, models.py,
schemas.py, database.py, resolvers.py).

The relational store (SQLite via SQLModel) is modelled as two lists of rows
in insertion (rowid / id-ascending) order together with the id counters the
store would generate for the next inserted row.  Timestamps
(`datetime.utcnow()` defaults) are abstract `Nat` instants passed in as a
`now` parameter to the mutations that create rows; `isoformat` is their
serialization to the wire string.  Each resolver from `main.py` (the module
actually mounted in the schema) is a function from the store (and its
arguments) to a result paired with the store after the call; mutations that
raise a Python `Exception` return `.error` with the exact message string of
the source.  `session.get(Model, id)` is primary-key lookup, embedded as
`List.find?` on the row id; re-fetching a row by its own primary key inside
the same session (the redundant `session.get(Post, post.id)` pattern)
returns the same row and is embedded as the row itself.  A dangling
`post.author` relationship would raise `AttributeError` in Python; it is
embedded as a `none`/`.error` outcome.
-/

/-- Row of the `user` table (models.py `User`). -/
structure User where
  id : Nat
  name : String
  email : String
  age : Option Int
  created_at : Nat
deriving Repr, DecidableEq

/-- Row of the `post` table (models.py `Post`). -/
structure Post where
  id : Nat
  title : String
  content : String
  author_id : Nat
  created_at : Nat
deriving Repr, DecidableEq

/-- Wire-facing output type `UserType{id, name, email, age, created_at}`. -/
structure UserType where
  id : Nat
  name : String
  email : String
  age : Option Int
  created_at : String
deriving Repr, DecidableEq

/-- Wire-facing output type `PostType{id, title, content, created_at, author}`. -/
structure PostType where
  id : Nat
  title : String
  content : String
  created_at : String
  author : UserType
deriving Repr, DecidableEq

/-- Input type `UserInput{name, email, age?}`. -/
structure UserInput where
  name : String
  email : String
  age : Option Int
deriving Repr, DecidableEq

/-- Input type `PostInput{title, content, author_id}`. -/
structure PostInput where
  title : String
  content : String
  author_id : Nat
deriving Repr, DecidableEq

/-- The relational store: the two tables in insertion order plus the
primary-key counters the store assigns to the next inserted rows. -/
structure Store where
  users : List User
  posts : List Post
  nextUserId : Nat
  nextPostId : Nat
deriving Repr, DecidableEq

/-- `datetime.isoformat()` on the abstract timestamp. -/
def isoformat (t : Nat) : String := toString t

/-- Mapping of a stored user row to the wire type (the repeated
`UserType(id=user.id, ...)` construction). -/
def toUserType (u : User) : UserType :=
  { id := u.id, name := u.name, email := u.email, age := u.age,
    created_at := isoformat u.created_at }

/-- `post.author`: the relationship resolves the user row named by the
foreign key `author_id`. -/
def authorOf (s : Store) (p : Post) : Option User :=
  s.users.find? (fun u => u.id == p.author_id)

/-- Mapping of a stored post row to the wire type with its embedded author;
`none` embeds the `AttributeError` a dangling `post.author` would raise. -/
def postToType (s : Store) (p : Post) : Option PostType :=
  match authorOf s p with
  | none => none
  | some a =>
      some { id := p.id, title := p.title, content := p.content,
             created_at := isoformat p.created_at, author := toUserType a }

/-- The accumulation loop of `Query.posts`: build a `PostType` for each row
in order; a dangling author aborts the request. -/
def postRows (s : Store) : List Post → Option (List PostType)
  | [] => some []
  | p :: rest =>
      match postToType s p with
      | none => none
      | some pt =>
          match postRows s rest with
          | none => none
          | some pts => some (pt :: pts)

namespace Query

/-- `Query.hello` (main.py lines 43-45). -/
def hello (s : Store) : String × Store :=
  ("Hello, GraphQL with FastAPI!", s)

/-- `Query.users` (main.py lines 47-67): `select(User).offset(offset).limit(limit)`
then map each row to `UserType`. -/
def users (s : Store) (limit offset : Nat) : List UserType × Store :=
  (((s.users.drop offset).take limit).map toUserType, s)

/-- `Query.user` (main.py lines 69-85): primary-key lookup, `null` when absent. -/
def user (s : Store) (id : Nat) : Option UserType × Store :=
  (match s.users.find? (fun u => u.id == id) with
   | some u => some (toUserType u)
   | none => none, s)

/-- `Query.posts` (main.py lines 87-116): paginated select, then each row is
re-fetched by its primary key (same row) and mapped with its embedded author. -/
def posts (s : Store) (limit offset : Nat) : Option (List PostType) × Store :=
  (postRows s ((s.posts.drop offset).take limit), s)

/-- `Query.post` (main.py lines 118-142): `some none` is the GraphQL `null`
for an absent id; the outer `none` embeds the dangling-author crash. -/
def post (s : Store) (id : Nat) : Option (Option PostType) × Store :=
  (match s.posts.find? (fun p => p.id == id) with
   | none => some none
   | some p =>
       match postToType s p with
       | none => none
       | some pt => some (some pt), s)

end Query

/-- The sequential conditional field assignments of `Mutation.update_user`
(main.py lines 188-193): each `if arg is not None` overwrites one field. -/
def applyUserUpdate (u : User) (name email : Option String) (age : Option Int) : User :=
  let u1 := match name with | some n => { u with name := n } | none => u
  let u2 := match email with | some e => { u1 with email := e } | none => u1
  match age with | some a => { u2 with age := some a } | none => u2

/-- The sequential conditional field assignments of `Mutation.update_post`
(main.py lines 271-274). -/
def applyPostUpdate (p : Post) (title content : Option String) : Post :=
  let p1 := match title with | some t => { p with title := t } | none => p
  match content with | some c => { p1 with content := c } | none => p1

/-- `session.delete(user)`: remove the row found by primary key (the first
and, under the primary-key invariant, only row with that id). -/
def removeUser (id : Nat) : List User → List User
  | [] => []
  | u :: rest => if u.id == id then rest else u :: removeUser id rest

/-- `session.delete(post)`: remove the row found by primary key. -/
def removePost (id : Nat) : List Post → List Post
  | [] => []
  | p :: rest => if p.id == id then rest else p :: removePost id rest

namespace Mutation

/-- `Mutation.create_user` (main.py lines 148-175): pre-insert duplicate-email
lookup, then insert with store-assigned id and timestamp. -/
def create_user (s : Store) (inp : UserInput) (now : Nat) : Except String UserType × Store :=
  match s.users.find? (fun u => u.email == inp.email) with
  | some _ => (.error "User with this email already exists", s)
  | none =>
      let u : User := { id := s.nextUserId, name := inp.name, email := inp.email,
                        age := inp.age, created_at := now }
      (.ok (toUserType u),
       { s with users := s.users ++ [u], nextUserId := s.nextUserId + 1 })

/-- `Mutation.update_user` (main.py lines 177-205): primary-key lookup,
partial field overwrite, commit; the commit writes the updated row back in
place of the row with that primary key. -/
def update_user (s : Store) (id : Nat) (name email : Option String) (age : Option Int) :
    Except String UserType × Store :=
  match s.users.find? (fun u => u.id == id) with
  | none => (.error "User not found", s)
  | some u =>
      let u' := applyUserUpdate u name email age
      (.ok (toUserType u'),
       { s with users := s.users.map (fun v => if v.id == id then u' else v) })

/-- `Mutation.delete_user` (main.py lines 207-220). -/
def delete_user (s : Store) (id : Nat) : Except String Bool × Store :=
  match s.users.find? (fun u => u.id == id) with
  | none => (.error "User not found", s)
  | some _ => (.ok true, { s with users := removeUser id s.users })

/-- `Mutation.create_post` (main.py lines 222-258): author existence check,
insert, then build the output from the re-fetched row and its author
relationship (the author row just looked up). -/
def create_post (s : Store) (inp : PostInput) (now : Nat) : Except String PostType × Store :=
  match s.users.find? (fun u => u.id == inp.author_id) with
  | none => (.error "Author not found", s)
  | some author =>
      let p : Post := { id := s.nextPostId, title := inp.title, content := inp.content,
                        author_id := inp.author_id, created_at := now }
      (.ok { id := p.id, title := p.title, content := p.content,
             created_at := isoformat p.created_at, author := toUserType author },
       { s with posts := s.posts ++ [p], nextPostId := s.nextPostId + 1 })

/-- `Mutation.update_post` (main.py lines 260-294): primary-key lookup,
partial field overwrite, commit, then build the output from the re-fetched
row.  Note main.py line 284: the returned `title` field is assigned
`post_with_author.content`, so the response carries the content in both the
`title` and `content` fields while the store holds the updated title. -/
def update_post (s : Store) (id : Nat) (title content : Option String) :
    Except String PostType × Store :=
  match s.posts.find? (fun p => p.id == id) with
  | none => (.error "Post not found", s)
  | some p =>
      let p' := applyPostUpdate p title content
      let s' := { s with posts := s.posts.map (fun q => if q.id == id then p' else q) }
      match s'.users.find? (fun u => u.id == p'.author_id) with
      | none => (.error "AttributeError: post has no author", s')
      | some author =>
          (.ok { id := p'.id, title := p'.content, content := p'.content,
                 created_at := isoformat p'.created_at, author := toUserType author },
           s')

/-- `Mutation.delete_post` (main.py lines 296-309). -/
def delete_post (s : Store) (id : Nat) : Except String Bool × Store :=
  match s.posts.find? (fun p => p.id == id) with
  | none => (.error "Post not found", s)
  | some _ => (.ok true, { s with posts := removePost id s.posts })

end Mutation

namespace Subscription

/-- `Subscription.count` (main.py lines 312-318): `for i in range(target): yield i`;
the finite sequence of emitted values, in emission order. -/
def count (target : Nat) : List Nat := List.range target

end Subscription

/-- The primary-key invariant the store's `user` table enforces: distinct rows
have distinct ids. -/
def UsersWF (s : Store) : Prop :=
  s.users.Pairwise (fun a b => a.id ≠ b.id)

instance (s : Store) : Decidable (UsersWF s) := by
  unfold UsersWF; infer_instance

/-- The primary-key invariant of the `post` table. -/
def PostsWF (s : Store) : Prop :=
  s.posts.Pairwise (fun a b => a.id ≠ b.id)

instance (s : Store) : Decidable (PostsWF s) := by
  unfold PostsWF; infer_instance

/-- A sequence of `updateUser` calls `(id, name?, email?, age?)`, applied in
order to the store; device for stating properties of call sequences. -/
def applyUserUpdates (s : Store) : List (Nat × Option String × Option String × Option Int) → Store
  | [] => s
  | c :: rest => applyUserUpdates (Mutation.update_user s c.1 c.2.1 c.2.2.1 c.2.2.2).2 rest

/-- Store holding one user (id 1) and one post (id 1) whose title "A" differs
from its content "B". -/
def bugStore : Store :=
  { users := [{ id := 1, name := "Alice", email := "alice@example.com", age := none, created_at := 0 }],
    posts := [{ id := 1, title := "A", content := "B", author_id := 1, created_at := 0 }],
    nextUserId := 2, nextPostId := 2 }

/-- First seeded user. -/
def seedU1 : User :=
  { id := 1, name := "Alice", email := "alice@example.com", age := some 30, created_at := 0 }

/-- Second seeded user. -/
def seedU2 : User :=
  { id := 2, name := "Bob", email := "bob@example.com", age := none, created_at := 1 }

/-- Seeded post with id `n`, authored by user 1 when `n` is odd and user 2
when `n` is even. -/
def seedPost (n : Nat) : Post :=
  { id := n, title := "title" ++ toString n, content := "content" ++ toString n,
    author_id := if n % 2 == 0 then 2 else 1, created_at := n }

/-- Store pre-seeded with two users and five posts, ids 1..5 in insertion
order. -/
def seedStore : Store :=
  { users := [seedU1, seedU2],
    posts := [seedPost 1, seedPost 2, seedPost 3, seedPost 4, seedPost 5],
    nextUserId := 3, nextPostId := 6 }

/-- The wire object for seeded post 2 (author: user 2). -/
def seedPT2 : PostType :=
  { id := 2, title := "title2", content := "content2", created_at := isoformat 2,
    author := toUserType seedU2 }

/-- The wire object for seeded post 3 (author: user 1). -/
def seedPT3 : PostType :=
  { id := 3, title := "title3", content := "content3", created_at := isoformat 3,
    author := toUserType seedU1 }

section Lemmas

/-- In a list whose elements have pairwise-distinct keys, two members with the
same key are the same element. -/
theorem key_unique {α κ : Type} (key : α → κ) :
    ∀ (l : List α), l.Pairwise (fun a b => key a ≠ key b) →
      ∀ a, a ∈ l → ∀ b, b ∈ l → key a = key b → a = b := by
  intro l hl
  induction hl with
  | nil => intro a ha; cases ha
  | cons hhead _ ih =>
    intro a ha b hb hk
    rcases List.mem_cons.mp ha with rfl | ha'
    · rcases List.mem_cons.mp hb with rfl | hb'
      · rfl
      · exact absurd hk (hhead b hb')
    · rcases List.mem_cons.mp hb with rfl | hb'
      · exact absurd hk.symm (hhead a ha')
      · exact ih a ha' b hb' hk

end Lemmas

section Claims

/-- C1 (code_bug evidence): on a store whose post 1 has title "A" and content
"B", `updatePost(1, title := "T")` stores title "T" but the returned `PostType`
carries the content "B" in its `title` field (main.py line 284), so the
returned title differs from the stored title. -/
theorem update_post_returns_content_as_title :
    (Mutation.update_post bugStore 1 (some "T") none).1 =
      .ok { id := 1, title := "B", content := "B", created_at := isoformat 0,
            author := toUserType { id := 1, name := "Alice", email := "alice@example.com",
                                   age := none, created_at := 0 } }
    ∧ ((Mutation.update_post bugStore 1 (some "T") none).2.posts.find?
         (fun p => p.id == 1)).map Post.title = some "T"
    ∧ ((Mutation.update_post bugStore 1 (some "T") none).1.toOption.map PostType.title ≠
       ((Mutation.update_post bugStore 1 (some "T") none).2.posts.find?
          (fun p => p.id == 1)).map Post.title) :=
  ⟨rfl, rfl, by decide⟩

/-- C5: the `count` subscription emits exactly the values `0, 1, ..., target-1`
in strictly increasing order and then completes; for `target = 3` it emits
exactly `0, 1, 2`. -/
theorem count_emits_range (target : Nat) :
    (Subscription.count target).length = target
    ∧ (∀ i : Nat, (Subscription.count target)[i]? = if i < target then some i else none)
    ∧ List.Pairwise (· < ·) (Subscription.count target)
    ∧ Subscription.count 3 = [0, 1, 2] := by
  refine ⟨List.length_range target, ?_, List.pairwise_lt_range target, by decide⟩
  intro i
  by_cases h : i < target
  · simp [Subscription.count, List.getElem?_range h, h]
  · simp [Subscription.count, h, List.getElem?_eq_none, List.length_range, Nat.le_of_not_lt h]

/-- C10: every query resolver (hello, users, user, posts, post) returns the
store unchanged: the tables after the query equal the tables before it. -/
theorem queries_leave_store_unchanged (s : Store) (id limit offset : Nat) :
    (Query.hello s).2 = s
    ∧ (Query.users s limit offset).2 = s
    ∧ (Query.user s id).2 = s
    ∧ (Query.posts s limit offset).2 = s
    ∧ (Query.post s id).2 = s :=
  ⟨rfl, rfl, rfl, rfl, rfl⟩

end Claims

/-- C2: createUser fails with the duplicate-email error and leaves the store
unchanged when some stored user already has the input email; otherwise it
appends the new user with store-assigned id and timestamp and returns the
full User. -/
theorem create_user_duplicate_email (s : Store) (inp : UserInput) (now : Nat) :
    ((∃ u ∈ s.users, u.email = inp.email) →
       Mutation.create_user s inp now = (.error "User with this email already exists", s))
    ∧ ((∀ u ∈ s.users, u.email ≠ inp.email) →
       Mutation.create_user s inp now =
         (.ok { id := s.nextUserId, name := inp.name, email := inp.email, age := inp.age,
                created_at := isoformat now },
          { s with
            users := s.users ++ [({ id := s.nextUserId, name := inp.name, email := inp.email,
                                    age := inp.age, created_at := now } : User)],
            nextUserId := s.nextUserId + 1 })) := by
  constructor
  · rintro ⟨u, hu, he⟩
    have hs : (s.users.find? (fun v => v.email == inp.email)).isSome := by
      rw [List.find?_isSome]
      exact ⟨u, hu, by simpa using he⟩
    obtain ⟨v, hv⟩ := Option.isSome_iff_exists.mp hs
    simp [Mutation.create_user, hv]
  · intro h
    have hn : s.users.find? (fun v => v.email == inp.email) = none := by
      rw [List.find?_eq_none]
      intro x hx
      simpa using h x hx
    simp [Mutation.create_user, hn, toUserType]

theorem create_user_duplicate_email_witness :
    Mutation.create_user seedStore { name := "Carol", email := "alice@example.com", age := none } 7 =
      (.error "User with this email already exists", seedStore)
    ∧ Mutation.create_user seedStore { name := "Carol", email := "carol@example.com", age := some 3 } 7 =
      (.ok { id := 3, name := "Carol", email := "carol@example.com", age := some 3,
             created_at := isoformat 7 },
       { seedStore with
         users := seedStore.users ++ [({ id := 3, name := "Carol", email := "carol@example.com",
                                         age := some 3, created_at := 7 } : User)],
         nextUserId := 4 }) := by
  constructor
  · exact (create_user_duplicate_email seedStore
      { name := "Carol", email := "alice@example.com", age := none } 7).1
      ⟨seedU1, by decide, by decide⟩
  · have h := (create_user_duplicate_email seedStore
      { name := "Carol", email := "carol@example.com", age := some 3 } 7).2 (by decide)
    simpa [seedStore] using h

/-- C6: createPost fails with AuthorNotFound and leaves the store unchanged
when author_id names no stored user; otherwise it appends the post and
returns the Post with its embedded author. -/
theorem create_post_author_check (s : Store) (inp : PostInput) (now : Nat) :
    ((∀ u ∈ s.users, u.id ≠ inp.author_id) →
       Mutation.create_post s inp now = (.error "Author not found", s))
    ∧ (∀ author, s.users.find? (fun u => u.id == inp.author_id) = some author →
       Mutation.create_post s inp now =
         (.ok { id := s.nextPostId, title := inp.title, content := inp.content,
                created_at := isoformat now, author := toUserType author },
          { s with
            posts := s.posts ++ [({ id := s.nextPostId, title := inp.title,
                                    content := inp.content, author_id := inp.author_id,
                                    created_at := now } : Post)],
            nextPostId := s.nextPostId + 1 })) := by
  constructor
  · intro h
    have hn : s.users.find? (fun u => u.id == inp.author_id) = none := by
      rw [List.find?_eq_none]
      intro x hx
      simpa using h x hx
    simp [Mutation.create_post, hn]
  · intro author ha
    simp [Mutation.create_post, ha]

theorem create_post_author_check_witness :
    Mutation.create_post seedStore { title := "t", content := "c", author_id := 9 } 7 =
      (.error "Author not found", seedStore)
    ∧ Mutation.create_post seedStore { title := "t", content := "c", author_id := 2 } 7 =
      (.ok { id := 6, title := "t", content := "c", created_at := isoformat 7,
             author := toUserType seedU2 },
       { seedStore with
         posts := seedStore.posts ++ [({ id := 6, title := "t", content := "c", author_id := 2,
                                         created_at := 7 } : Post)],
         nextPostId := 7 }) := by
  constructor
  · exact (create_post_author_check seedStore
      { title := "t", content := "c", author_id := 9 } 7).1 (by decide)
  · have h := (create_post_author_check seedStore
      { title := "t", content := "c", author_id := 2 } 7).2 seedU2 (by decide)
    simpa [seedStore] using h

/-- C3: for a stored user found by id, updateUser overwrites exactly the
fields supplied (an omitted field keeps its prior value), never changes id
or created_at, and leaves every other stored user untouched. -/
theorem update_user_partial_semantics (s : Store) (id : Nat) (name email : Option String)
    (age : Option Int) (u : User)
    (hu : s.users.find? (fun v => v.id == id) = some u) :
    Mutation.update_user s id name email age =
      (.ok (toUserType (applyUserUpdate u name email age)),
       { s with users := (s.users.map (fun v => if v.id == id then applyUserUpdate u name email age else v)) })
    ∧ (applyUserUpdate u name email age).id = u.id
    ∧ (applyUserUpdate u name email age).created_at = u.created_at
    ∧ (applyUserUpdate u name email age).name = name.getD u.name
    ∧ (applyUserUpdate u name email age).email = email.getD u.email
    ∧ (applyUserUpdate u name email age).age = age.elim u.age some
    ∧ ∀ v ∈ s.users, v.id ≠ id → v ∈ (Mutation.update_user s id name email age).2.users := by
  refine ⟨?_, ?_, ?_, ?_, ?_, ?_, ?_⟩
  · simp [Mutation.update_user, hu]
  · cases name <;> cases email <;> cases age <;> simp [applyUserUpdate]
  · cases name <;> cases email <;> cases age <;> simp [applyUserUpdate]
  · cases name <;> cases email <;> cases age <;> simp [applyUserUpdate]
  · cases name <;> cases email <;> cases age <;> simp [applyUserUpdate]
  · cases name <;> cases email <;> cases age <;> simp [applyUserUpdate]
  · intro v hv hne
    simp only [Mutation.update_user, hu]
    exact List.mem_map.mpr ⟨v, hv, by simp [hne]⟩

theorem update_user_partial_semantics_witness :
    Mutation.update_user seedStore 1 none none (some 31) =
      (.ok (toUserType (applyUserUpdate seedU1 none none (some 31))),
       { seedStore with users := (seedStore.users.map (fun v => if v.id == 1 then applyUserUpdate seedU1 none none (some 31) else v)) })
    ∧ (applyUserUpdate seedU1 none none (some 31)).name = seedU1.name
    ∧ (applyUserUpdate seedU1 none none (some 31)).email = seedU1.email
    ∧ (applyUserUpdate seedU1 none none (some 31)).age = some 31 := by
  have h := update_user_partial_semantics seedStore 1 none none (some 31) seedU1 (by decide)
  refine ⟨h.1, ?_, ?_, ?_⟩
  · simpa using h.2.2.2.1
  · simpa using h.2.2.2.2.1
  · simpa using h.2.2.2.2.2.1

/-- C8: updateUser performs no email-uniqueness check: for every stored user
found by id and every supplied email value (even one already used by another
stored user) the call succeeds and overwrites the email; no updateUser call
ever produces the duplicate-email error. -/
theorem update_user_no_email_uniqueness_check (s : Store) (id : Nat) (name : Option String)
    (e : String) (age : Option Int) (u : User)
    (hu : s.users.find? (fun v => v.id == id) = some u) :
    (Mutation.update_user s id name (some e) age).1 =
      .ok (toUserType (applyUserUpdate u name (some e) age))
    ∧ (applyUserUpdate u name (some e) age).email = e
    ∧ ∀ (s' : Store) (id' : Nat) (n' e' : Option String) (a' : Option Int),
        (Mutation.update_user s' id' n' e' a').1 ≠
          .error "User with this email already exists" := by
  refine ⟨?_, ?_, ?_⟩
  · simp [Mutation.update_user, hu]
  · cases name <;> cases age <;> simp [applyUserUpdate]
  · intro s' id' n' e' a'
    cases hf : s'.users.find? (fun w => w.id == id') with
    | none => simp [Mutation.update_user, hf]
    | some w => simp [Mutation.update_user, hf]

theorem update_user_no_email_uniqueness_check_witness :
    seedU1 ∈ seedStore.users ∧ seedU1.email = "alice@example.com" ∧ seedU1.id ≠ 2
    ∧ (Mutation.update_user seedStore 2 none (some "alice@example.com") none).1 =
        .ok (toUserType (applyUserUpdate seedU2 none (some "alice@example.com") none))
    ∧ (applyUserUpdate seedU2 none (some "alice@example.com") none).email =
        "alice@example.com" := by
  have h := update_user_no_email_uniqueness_check seedStore 2 none "alice@example.com" none
    seedU2 (by decide)
  exact ⟨by decide, by decide, by decide, h.1, h.2.1⟩


/-- Deleting the row with a given primary key leaves no row with that key,
under the primary-key invariant. -/
theorem find?_removeUser_eq_none (id : Nat) :
    ∀ (l : List User), l.Pairwise (fun a b => a.id ≠ b.id) →
      (removeUser id l).find? (fun v => v.id == id) = none := by
  intro l
  induction l with
  | nil => intro _; rfl
  | cons u t ih =>
    intro hl
    rw [List.pairwise_cons] at hl
    obtain ⟨hhead, htail⟩ := hl
    by_cases h : u.id = id
    · have hb : (u.id == id) = true := beq_iff_eq.mpr h
      rw [removeUser, if_pos hb, List.find?_eq_none]
      intro x hx
      simp only [beq_iff_eq]
      intro hx2
      exact (hhead x hx) (h.trans hx2.symm)
    · have hb : (u.id == id) = false := by simpa using h
      rw [removeUser, if_neg (by simp [hb]), List.find?_cons, hb]
      exact ih htail

/-- C7: deleteUser fails with NotFound exactly when the id names no stored
user and otherwise removes that user and returns true; the user query
returns null (not an error) for any id naming no stored user, in particular
after a successful deleteUser of that id (under the primary-key invariant). -/
theorem delete_user_then_lookup_null (s : Store) (id : Nat) :
    (s.users.find? (fun v => v.id == id) = none →
       Mutation.delete_user s id = (.error "User not found", s))
    ∧ (∀ u, s.users.find? (fun v => v.id == id) = some u →
       Mutation.delete_user s id = (.ok true, { s with users := removeUser id s.users }))
    ∧ (∀ s₀ : Store, (∀ u ∈ s₀.users, u.id ≠ id) → Query.user s₀ id = (none, s₀))
    ∧ (UsersWF s →
       Query.user (Mutation.delete_user s id).2 id = (none, (Mutation.delete_user s id).2)) := by
  refine ⟨?_, ?_, ?_, ?_⟩
  · intro h
    simp [Mutation.delete_user, h]
  · intro u hu
    simp [Mutation.delete_user, hu]
  · intro s₀ h
    have hn : s₀.users.find? (fun v => v.id == id) = none := by
      rw [List.find?_eq_none]
      intro x hx
      simpa using h x hx
    simp [Query.user, hn]
  · intro hw
    cases hf : s.users.find? (fun v => v.id == id) with
    | none => simp [Mutation.delete_user, hf, Query.user]
    | some u =>
      have hr : (removeUser id s.users).find? (fun v => v.id == id) = none :=
        find?_removeUser_eq_none id s.users hw
      simp [Mutation.delete_user, hf, Query.user, hr]

theorem delete_user_then_lookup_null_witness :
    Mutation.delete_user seedStore 9 = (.error "User not found", seedStore)
    ∧ Mutation.delete_user seedStore 1 =
        (.ok true, { seedStore with users := removeUser 1 seedStore.users })
    ∧ Query.user bugStore 9 = (none, bugStore)
    ∧ Query.user (Mutation.delete_user seedStore 1).2 1 =
        (none, (Mutation.delete_user seedStore 1).2) := by
  have h1 := delete_user_then_lookup_null seedStore 1
  have h9 := delete_user_then_lookup_null seedStore 9
  exact ⟨h9.1 (by decide), h1.2.1 seedU1 (by decide), h9.2.2.1 bugStore (by decide),
         h1.2.2.2 (by decide)⟩

theorem applyUserUpdate_id_eq (u : User) (n e : Option String) (a : Option Int) :
    (applyUserUpdate u n e a).id = u.id := by
  cases n <;> cases e <;> cases a <;> simp [applyUserUpdate]

theorem applyUserUpdate_age_none (u : User) (n e : Option String) :
    (applyUserUpdate u n e none).age = u.age := by
  cases n <;> cases e <;> simp [applyUserUpdate]

theorem applyUserUpdate_age_isSome (u : User) (n e : Option String) (a : Option Int)
    (h : u.age.isSome) : (applyUserUpdate u n e a).age.isSome := by
  cases a with
  | some x => cases n <;> cases e <;> simp [applyUserUpdate]
  | none => cases n <;> cases e <;> exact h

theorem applyPostUpdate_id_eq (p : Post) (t c : Option String) :
    (applyPostUpdate p t c).id = p.id := by
  cases t <;> cases c <;> simp [applyPostUpdate]

theorem applyPostUpdate_title_none (p : Post) (c : Option String) :
    (applyPostUpdate p none c).title = p.title := by
  cases c <;> simp [applyPostUpdate]

/-- After an `updateUser` call, the row that occupied any position still has
its id; its age is unchanged when the call omitted `age`, and a non-null age
stays non-null (primary-key invariant assumed). -/
theorem update_user_mem_step (s : Store) (id : Nat) (n e : Option String) (a : Option Int)
    (hw : UsersWF s) (v : User) (hv : v ∈ s.users) :
    ∃ v' ∈ (Mutation.update_user s id n e a).2.users,
      v'.id = v.id ∧ (v.age.isSome → v'.age.isSome) ∧ (a = none → v'.age = v.age) := by
  cases hf : s.users.find? (fun w => w.id == id) with
  | none =>
    refine ⟨v, ?_, rfl, fun h => h, fun _ => rfl⟩
    simp [Mutation.update_user, hf, hv]
  | some u =>
    have hu_mem := List.mem_of_find?_eq_some hf
    have hid : u.id = id := by simpa using List.find?_some hf
    by_cases hvid : v.id = id
    · have huv : v = u := key_unique User.id s.users hw v hv u hu_mem (by rw [hvid, hid])
      refine ⟨applyUserUpdate u n e a, ?_, ?_, ?_, ?_⟩
      · simp only [Mutation.update_user, hf]
        exact List.mem_map.mpr ⟨v, hv, by simp [hvid]⟩
      · rw [applyUserUpdate_id_eq, hid, hvid]
      · intro hs
        exact applyUserUpdate_age_isSome u n e a (huv ▸ hs)
      · intro ha
        subst ha
        rw [applyUserUpdate_age_none, huv]
    · refine ⟨v, ?_, rfl, fun h => h, fun _ => rfl⟩
      simp only [Mutation.update_user, hf]
      exact List.mem_map.mpr ⟨v, hv, by simp [hvid]⟩

/-- `updateUser` preserves the primary-key invariant. -/
theorem update_user_preserves_WF (s : Store) (id : Nat) (n e : Option String) (a : Option Int)
    (hw : UsersWF s) : UsersWF (Mutation.update_user s id n e a).2 := by
  cases hf : s.users.find? (fun w => w.id == id) with
  | none => simpa [Mutation.update_user, hf] using hw
  | some u =>
    have hid : u.id = id := by simpa using List.find?_some hf
    unfold UsersWF at hw ⊢
    simp only [Mutation.update_user, hf]
    rw [List.pairwise_map]
    refine hw.imp ?_
    intro x y hxy
    by_cases hx : x.id = id <;> by_cases hy : y.id = id
    · exact absurd (hx.trans hy.symm) hxy
    · simp [hx, hy, applyUserUpdate_id_eq, hid, Ne.symm hy]
    · simp [hx, hy, applyUserUpdate_id_eq, hid]
    · simp [hx, hy]
      exact hxy

/-- Over any sequence of `updateUser` calls a non-null age stays non-null. -/
theorem applyUserUpdates_age_isSome :
    ∀ (cmds : List (Nat × Option String × Option String × Option Int)) (s : Store),
      UsersWF s → ∀ v ∈ s.users, v.age.isSome →
      ∃ v' ∈ (applyUserUpdates s cmds).users, v'.id = v.id ∧ v'.age.isSome := by
  intro cmds
  induction cmds with
  | nil =>
    intro s _ v hv hs
    exact ⟨v, hv, rfl, hs⟩
  | cons c rest ih =>
    intro s hw v hv hs
    obtain ⟨v', hv', hid, hsome, _⟩ := update_user_mem_step s c.1 c.2.1 c.2.2.1 c.2.2.2 hw v hv
    obtain ⟨v'', hv'', hid', hs''⟩ :=
      ih _ (update_user_preserves_WF s c.1 c.2.1 c.2.2.1 c.2.2.2 hw) v' hv' (hsome hs)
    exact ⟨v'', hv'', hid'.trans hid, hs''⟩

/-- After an `updatePost` call that omitted `title`, every row keeps its title
(primary-key invariant assumed). -/
theorem update_post_title_none_step (s : Store) (id : Nat) (c : Option String)
    (hw : PostsWF s) (q : Post) (hq : q ∈ s.posts) :
    ∃ q' ∈ (Mutation.update_post s id none c).2.posts, q'.id = q.id ∧ q'.title = q.title := by
  cases hf : s.posts.find? (fun w => w.id == id) with
  | none =>
    refine ⟨q, ?_, rfl, rfl⟩
    simp [Mutation.update_post, hf, hq]
  | some p =>
    have hp_mem := List.mem_of_find?_eq_some hf
    have hid : p.id = id := by simpa using List.find?_some hf
    have hposts : (Mutation.update_post s id none c).2.posts =
        s.posts.map (fun w => if w.id == id then applyPostUpdate p none c else w) := by
      simp only [Mutation.update_post, hf]
      cases ha : (s.users.find? (fun u => u.id == (applyPostUpdate p none c).author_id)) <;> simp
    by_cases hqid : q.id = id
    · have hqp : q = p := key_unique Post.id s.posts hw q hq p hp_mem (by rw [hqid, hid])
      refine ⟨applyPostUpdate p none c, ?_, ?_, ?_⟩
      · rw [hposts]
        exact List.mem_map.mpr ⟨q, hq, by simp [hqid]⟩
      · rw [applyPostUpdate_id_eq, hid, hqid]
      · rw [applyPostUpdate_title_none, hqp]
    · refine ⟨q, ?_, rfl, rfl⟩
      rw [hposts]
      exact List.mem_map.mpr ⟨q, hq, by simp [hqid]⟩

/-- C9: an explicit null for an optional update field is received as the same
absent value as an omitted field, so the stored value is left unchanged
(updateUser age, updatePost title shown), and a user's non-null age can never
be cleared back to null by any sequence of updateUser calls. -/
theorem null_update_indistinguishable_from_omit :
    (∀ (s : Store) (id : Nat) (n e : Option String), UsersWF s → ∀ v ∈ s.users,
       ∃ v' ∈ (Mutation.update_user s id n e none).2.users, v'.id = v.id ∧ v'.age = v.age)
    ∧ (∀ (s : Store) (id : Nat) (c : Option String), PostsWF s → ∀ q ∈ s.posts,
       ∃ q' ∈ (Mutation.update_post s id none c).2.posts, q'.id = q.id ∧ q'.title = q.title)
    ∧ (∀ (cmds : List (Nat × Option String × Option String × Option Int)) (s : Store),
       UsersWF s → ∀ v ∈ s.users, v.age.isSome →
       ∃ v' ∈ (applyUserUpdates s cmds).users, v'.id = v.id ∧ v'.age.isSome) := by
  refine ⟨?_, ?_, ?_⟩
  · intro s id n e hw v hv
    obtain ⟨v', hv', hid, _, hnone⟩ := update_user_mem_step s id n e none hw v hv
    exact ⟨v', hv', hid, hnone rfl⟩
  · intro s id c hw q hq
    exact update_post_title_none_step s id c hw q hq
  · exact applyUserUpdates_age_isSome

theorem null_update_indistinguishable_from_omit_witness :
    UsersWF seedStore ∧ PostsWF seedStore
    ∧ (∃ v' ∈ (Mutation.update_user seedStore 1 (some "Alicia") none none).2.users,
         v'.id = seedU1.id ∧ v'.age = seedU1.age)
    ∧ (∃ q' ∈ (Mutation.update_post seedStore 2 none (some "c")).2.posts,
         q'.id = (seedPost 2).id ∧ q'.title = (seedPost 2).title)
    ∧ (∃ v' ∈ (applyUserUpdates seedStore [(1, none, none, some 44), (1, some "Al", none, none)]).users,
         v'.id = seedU1.id ∧ v'.age.isSome) := by
  refine ⟨by decide, by decide, ?_, ?_, ?_⟩
  · exact null_update_indistinguishable_from_omit.1 seedStore 1 (some "Alicia") none
      (by decide) seedU1 (by decide)
  · exact null_update_indistinguishable_from_omit.2.1 seedStore 2 (some "c")
      (by decide) (seedPost 2) (by decide)
  · exact null_update_indistinguishable_from_omit.2.2
      [(1, none, none, some 44), (1, some "Al", none, none)] seedStore
      (by decide) seedU1 (by decide) (by decide)


/-- Soundness of the posts accumulation loop: a successful run returns one
wire object per row, in order, each carrying the author row resolved from the
store. -/
theorem postRows_sound (s : Store) :
    ∀ (l : List Post) (r : List PostType), postRows s l = some r →
      r.length = l.length ∧
      ∀ i, i < l.length →
        ∃ p u, l[i]? = some p ∧ authorOf s p = some u ∧
          r[i]? = some { id := p.id, title := p.title, content := p.content, created_at := isoformat p.created_at, author := toUserType u } := by
  intro l
  induction l with
  | nil =>
    intro r hr
    simp only [postRows] at hr
    obtain rfl := (Option.some_inj.mp hr).symm
    exact ⟨rfl, fun i hi => absurd hi (by simp)⟩
  | cons p t ih =>
    intro r hr
    simp only [postRows] at hr
    cases ha : postToType s p with
    | none => rw [ha] at hr; cases hr
    | some pt =>
      rw [ha] at hr
      cases hrec : postRows s t with
      | none => rw [hrec] at hr; cases hr
      | some pts =>
        rw [hrec] at hr
        obtain rfl := (Option.some_inj.mp hr).symm
        obtain ⟨hlen, hidx⟩ := ih pts hrec
        refine ⟨by simp [hlen], ?_⟩
        intro i hi
        cases i with
        | zero =>
          unfold postToType at ha
          cases hau : authorOf s p with
          | none => rw [hau] at ha; cases ha
          | some u =>
            rw [hau] at ha
            obtain rfl := Option.some_inj.mp ha
            exact ⟨p, u, by simp, hau, by simp⟩
        | succ j =>
          obtain ⟨p', u', hp', hau', hr'⟩ := hidx j (by simpa using hi)
          exact ⟨p', u', by simpa using hp', hau', by simpa using hr'⟩

/-- C4: posts(limit, offset) returns at most limit posts, the window that
skips the first offset rows in insertion (id-ascending) order, each returned
post carrying the full embedded author row for its author_id; concretely,
over the five seeded posts, posts(limit=2, offset=1) returns exactly posts 2
and 3 with their correct authors. -/
theorem posts_pagination_with_authors (s : Store) (limit offset : Nat) :
    (∀ r, (Query.posts s limit offset).1 = some r →
       r.length ≤ limit ∧
       ∀ i, i < r.length →
         ∃ p u, ((s.posts.drop offset).take limit)[i]? = some p ∧
           u ∈ s.users ∧ u.id = p.author_id ∧
           r[i]? = some { id := p.id, title := p.title, content := p.content, created_at := isoformat p.created_at, author := toUserType u })
    ∧ Query.posts seedStore 2 1 = (some [seedPT2, seedPT3], seedStore) := by
  constructor
  · intro r hr
    obtain ⟨hlen, hidx⟩ := postRows_sound s ((s.posts.drop offset).take limit) r hr
    constructor
    · rw [hlen, List.length_take]
      exact min_le_left _ _
    · intro i hi
      have hlen' : ((s.posts.drop offset).take limit).length = r.length := hlen.symm
      obtain ⟨p, u, hp, hau, hri⟩ := hidx i (by omega)
      have hu_mem : u ∈ s.users := List.mem_of_find?_eq_some (by simpa [authorOf] using hau)
      have hid : u.id = p.author_id := by
        have hfs := List.find?_some (by simpa [authorOf] using hau)
        simpa using hfs
      exact ⟨p, u, hp, hu_mem, hid, hri⟩
  · rfl

theorem posts_pagination_with_authors_witness :
    ([seedPT2, seedPT3] : List PostType).length ≤ 2 :=
  (((posts_pagination_with_authors seedStore 2 1).1 [seedPT2, seedPT3]) rfl).1
